import Mathlib

set_option linter.unusedVariables false
set_option linter.unnecessarySimpa false

/-!
Verification of the animation/interaction hooks of a React UI-component
library: the animated counter (`AnimatedCounter.tsx`), the typewriter
animation (`TypingAnimation.tsx`), the 3D tilt hook (`use-tilt`), and the
theme persistence store (`use-theme.tsx`).

JS numbers are modelled as rationals (`ℚ`); where the non-finite values
`NaN`/`Infinity` matter they are modelled explicitly by a `JSNum` type.
JS strings are modelled as `List Char`.
-/

namespace UIHooks

/-! ## Numeric counter animator (AnimatedCounter.tsx)

The per-frame update `updateCounter` computes
`progress = Math.min((now - startTime) / duration, 1)`, eases it with
`easeOutQuad t = t * (2 - t)`, sets the count to
`Math.floor(easedProgress * end)`, and then — when `now` has reached
`endTime = startTime + duration` — overwrites the count with `end`.
-/

/-- `const easeOutQuad = (t: number): number => t * (2 - t)` -/
def easeOutQuad (t : ℚ) : ℚ := t * (2 - t)

/-- The value held by the `count` state after the frame callback
`updateCounter` runs at time `now` (start time `start`, duration `dur`,
target `e`).  When `now < start + dur` the last `setCount` of the frame is
`Math.floor(easedProgress * end)`; otherwise the frame ends with
`setCount(end)`. -/
def counterDisplay (e dur start now : ℚ) : ℚ :=
  let progress := min ((now - start) / dur) 1
  let easedProgress := easeOutQuad progress
  let currentCount : ℚ := (⌊easedProgress * e⌋ : ℤ)
  if now < start + dur then currentCount else e

/-- `easeOutQuad` is monotone on arguments `≤ 1`. -/
lemma easeOutQuad_mono {a b : ℚ} (hab : a ≤ b) (hb : b ≤ 1) :
    easeOutQuad a ≤ easeOutQuad b := by
  unfold easeOutQuad
  nlinarith

/-- `easeOutQuad t ≤ 1` always (the curve peaks at `t = 1`). -/
lemma easeOutQuad_le_one (t : ℚ) : easeOutQuad t ≤ 1 := by
  unfold easeOutQuad
  nlinarith [sq_nonneg (1 - t)]

/-- C2: with a positive duration, once `now - start ≥ dur` the frame sets the
displayed value exactly to `e`; before that it displays
`⌊easeOutQuad ((now - start) / dur) * e⌋`. -/
theorem counter_exactness (e dur start now : ℚ) (hd : 0 < dur) :
    (dur ≤ now - start → counterDisplay e dur start now = e) ∧
    (0 ≤ now - start → now - start < dur →
      counterDisplay e dur start now =
        ((⌊easeOutQuad ((now - start) / dur) * e⌋ : ℤ) : ℚ)) := by
  constructor
  · intro h
    unfold counterDisplay
    have : ¬ now < start + dur := by linarith
    simp [this]
  · intro h0 h1
    unfold counterDisplay
    have hlt : now < start + dur := by linarith
    have hmin : min ((now - start) / dur) 1 = (now - start) / dur := by
      apply min_eq_left
      rw [div_le_one hd]
      linarith
    simp [hlt, hmin]

/-- Witness for `counter_exactness` at `e = 1000`, `dur = 2000`,
`start = 0`, `now = 2500` (past the end) and `now = 500` (mid-animation). -/
theorem counter_exactness_witness :
    (0 : ℚ) < 2000 ∧ (2000 : ℚ) ≤ 2500 - 0 ∧
    counterDisplay 1000 2000 0 2500 = 1000 := by
  refine ⟨by norm_num, by norm_num, ?_⟩
  exact (counter_exactness 1000 2000 0 2500 (by norm_num)).1 (by norm_num)

/-- C8: for `0 < e`, `0 < dur` and frame times `start ≤ t1 ≤ t2`, the
displayed counter value is non-decreasing. -/
theorem counter_monotone (e dur start t1 t2 : ℚ)
    (he : 0 < e) (hd : 0 < dur) (h1 : start ≤ t1) (h12 : t1 ≤ t2) :
    counterDisplay e dur start t1 ≤ counterDisplay e dur start t2 := by
  unfold counterDisplay
  set p1 := min ((t1 - start) / dur) 1 with hp1
  set p2 := min ((t2 - start) / dur) 1 with hp2
  have hp1le : p1 ≤ 1 := min_le_right _ _
  have hp2le : p2 ≤ 1 := min_le_right _ _
  have hple : p1 ≤ p2 := by
    apply min_le_min _ le_rfl
    gcongr
  have hease : easeOutQuad p1 ≤ easeOutQuad p2 := easeOutQuad_mono hple hp2le
  have hmul : easeOutQuad p1 * e ≤ easeOutQuad p2 * e :=
    mul_le_mul_of_nonneg_right hease he.le
  have hfloor_le_e : ((⌊easeOutQuad p1 * e⌋ : ℤ) : ℚ) ≤ e := by
    calc ((⌊easeOutQuad p1 * e⌋ : ℤ) : ℚ) ≤ easeOutQuad p1 * e := Int.floor_le _
    _ ≤ 1 * e := mul_le_mul_of_nonneg_right (easeOutQuad_le_one p1) he.le
    _ = e := one_mul e
  by_cases hc1 : t1 < start + dur
  · by_cases hc2 : t2 < start + dur
    · simp only [if_pos hc1, if_pos hc2]
      exact_mod_cast Int.floor_le_floor hmul
    · simp only [if_pos hc1, if_neg hc2]
      exact hfloor_le_e
  · have hc2 : ¬ t2 < start + dur := by
      intro h
      exact hc1 (lt_of_le_of_lt (by linarith : t1 ≤ t2) h)
    simp [hc1, hc2]

/-- Witness for `counter_monotone` at `e = 1000`, `dur = 2000`, `start = 0`,
`t1 = 500`, `t2 = 2500`. -/
theorem counter_monotone_witness :
    (0 : ℚ) < 1000 ∧ (0 : ℚ) < 2000 ∧ (0 : ℚ) ≤ 500 ∧ (500 : ℚ) ≤ 2500 ∧
    counterDisplay 1000 2000 0 500 ≤ counterDisplay 1000 2000 0 2500 :=
  ⟨by norm_num, by norm_num, by norm_num, by norm_num,
    counter_monotone 1000 2000 0 500 2500 (by norm_num) (by norm_num)
      (by norm_num) (by norm_num)⟩

/-! ## Counter setup, visibility observer, and effect cleanup

`AnimatedCounter`'s single effect attaches an `IntersectionObserver` when the
ref is present and `hasAnimated` is false; its cleanup is exactly
`observer.disconnect()`.  The `requestAnimationFrame` chain started by
`animateCounter` is never cancelled by the cleanup.  No configuration value
(`end`, `duration`) is ever inspected at setup.
-/

/-- A JavaScript number: a finite rational or one of the non-finite values. -/
inductive JSNum
  | num (q : ℚ)
  | nan
  | posInf
  | negInf
deriving DecidableEq, Repr

/-- `Number.isFinite` on the `JSNum` model. -/
def JSNum.isFinite : JSNum → Bool
  | .num _ => true
  | _ => false

/-- Outcome of running `AnimatedCounter`'s effect body once. -/
structure CounterSetup where
  observerAttached : Bool
  configRejected : Bool
deriving DecidableEq, Repr

/-- The effect body of `AnimatedCounter`:
`if (!counterRef.current || hasAnimated) return` and otherwise create and
attach the `IntersectionObserver`.  Neither `e` nor `dur` is inspected —
the source contains no configuration validation, so `configRejected` is
`false` on every path. -/
def counterSetup (e dur : JSNum) (refPresent hasAnimated : Bool) : CounterSetup :=
  if !refPresent || hasAnimated then
    { observerAttached := false, configRejected := false }
  else
    { observerAttached := true, configRejected := false }

/-- The `IntersectionObserver` callback of `AnimatedCounter`: it iterates
over `entries`, and for each entry with `entry.isIntersecting &&
!hasAnimated` it calls `setHasAnimated(true)` and `animateCounter()`.
`hasAnimated` here is the value captured by the closure at effect time —
`setHasAnimated` does not change it within the same callback.  Returns the
number of `animateCounter()` invocations and the final `hasAnimated` React
state. -/
def observerCallback (hasAnimated : Bool) (entries : List Bool) : Nat × Bool :=
  entries.foldl
    (fun acc isIntersecting =>
      if isIntersecting && !hasAnimated then (acc.1 + 1, true) else acc)
    (0, hasAnimated)

/-- The resources registered by `AnimatedCounter` while animating: the
observer, and whether an animation-frame callback is currently scheduled. -/
structure CounterResources where
  observerActive : Bool
  rafPending : Bool
deriving DecidableEq, Repr

/-- The effect cleanup of `AnimatedCounter` is `() => observer.disconnect()`:
it deactivates the observer and touches nothing else — in particular it does
not cancel a pending animation-frame callback. -/
def counterEffectCleanup (r : CounterResources) : CounterResources :=
  { r with observerActive := false }

/-- One firing of the scheduled `updateCounter` animation-frame callback at
time `now`: if a frame is pending it fires, performs its `setCount` (the
returned `Option ℚ` is the value written), and re-schedules itself exactly
when `now < endTime`. -/
def counterFrameStep (e dur start now : ℚ) (r : CounterResources) :
    Option ℚ × CounterResources :=
  if r.rafPending then
    (some (counterDisplay e dur start now),
      { r with rafPending := decide (now < start + dur) })
  else (none, r)

/-- C1 (failing-input evaluation): tearing down `AnimatedCounter`
mid-animation (cleanup at a moment when an animation frame is pending, e.g.
`start = 0`, `dur = 2000`, teardown before `t = 1000`) does not revoke the
animation-frame loop: at `t = 1000` the callback still fires, writes the
value `750` to state, and schedules yet another frame. -/
theorem counter_teardown_dangling_raf :
    (counterEffectCleanup { observerActive := true, rafPending := true }).rafPending = true ∧
    counterFrameStep 1000 2000 0 1000
        (counterEffectCleanup { observerActive := true, rafPending := true }) =
      (some 750, { observerActive := false, rafPending := true }) := by
  constructor
  · rfl
  · simp only [counterEffectCleanup, counterFrameStep, counterDisplay, easeOutQuad]
    norm_num

/-- C6 (failing-input evaluation): a single observer callback delivering the
batched entries `[intersecting, not-intersecting, intersecting]` (the element
crossed the threshold several times between observer task deliveries) starts
the animation twice, because the closure-captured `hasAnimated` stays `false`
for the whole `forEach`. -/
theorem counter_double_fire :
    observerCallback false [true, false, true] = (2, true) := by
  decide

/-- After the first trigger has re-run the effect with `hasAnimated = true`,
a callback created by a (hypothetical) later effect never starts the
animation again. -/
lemma observerCallback_done (entries : List Bool) :
    (observerCallback true entries).1 = 0 := by
  induction entries with
  | nil => rfl
  | cons e es ih =>
    simpa [observerCallback] using ih

/-- C9 counterexample: with the non-finite configuration `end = NaN`
(duration 2000), setup does not reject the configuration and still attaches
the observer (so the animation loop will start on first visibility) —
refuting "non-finite end or duration is rejected at setup and no animation
loop is started". -/
theorem counter_validation_counterexample :
    JSNum.isFinite JSNum.nan = false ∧
    counterSetup JSNum.nan (JSNum.num 2000) true false =
      { observerAttached := true, configRejected := false } := by
  decide

/-- C9 amended: the component performs no configuration validation at all —
for every configuration (finite or not) setup never reports a rejection,
and whenever the ref is present and the instance has not yet animated the
observer is attached, so the animation loop starts on first visibility. -/
theorem counter_no_validation (e dur : JSNum) (refPresent hasAnimated : Bool) :
    (counterSetup e dur refPresent hasAnimated).configRejected = false ∧
    (refPresent = true → hasAnimated = false →
      (counterSetup e dur refPresent hasAnimated).observerAttached = true) := by
  constructor
  · cases refPresent <;> cases hasAnimated <;> rfl
  · intro hr ha
    subst hr; subst ha
    rfl

/-- Witness for `counter_no_validation` at `end = NaN`, `dur = 2000`,
ref present, not yet animated. -/
theorem counter_no_validation_witness :
    (counterSetup JSNum.nan (JSNum.num 2000) true false).configRejected = false ∧
    (counterSetup JSNum.nan (JSNum.num 2000) true false).observerAttached = true :=
  ⟨(counter_no_validation JSNum.nan (JSNum.num 2000) true false).1,
    (counter_no_validation JSNum.nan (JSNum.num 2000) true false).2 rfl rfl⟩

/-! ## 3D tilt hook (use-tilt)

`handleMouseMove` computes, from the pointer position and the element's
bounding rectangle,
`rotateX = ((y - centerY) / centerY) * -max` and
`rotateY = ((x - centerX) / centerX) * max`.
-/

/-- The element's bounding client rectangle. -/
structure DOMRectModel where
  left : ℚ
  top : ℚ
  width : ℚ
  height : ℚ

/-- The pair `(rotateX, rotateY)` computed by `handleMouseMove` of `useTilt`
for a mouse event at `(clientX, clientY)` with configured maximum `mx`. -/
def tiltRotate (rect : DOMRectModel) (clientX clientY mx : ℚ) : ℚ × ℚ :=
  let x := clientX - rect.left
  let y := clientY - rect.top
  let centerX := rect.width / 2
  let centerY := rect.height / 2
  (((y - centerY) / centerY) * (-mx), ((x - centerX) / centerX) * mx)

/-- C3: for every mouse position inside the element's bounding rectangle
(the only positions for which the element receives `mousemove`), both
rotation angles lie in `[-mx, mx]`; and at the exact center both angles
are `0`. -/
theorem tilt_bounds (rect : DOMRectModel) (clientX clientY mx : ℚ)
    (hmx : 0 ≤ mx) (hw : 0 < rect.width) (hh : 0 < rect.height)
    (hx1 : rect.left ≤ clientX) (hx2 : clientX ≤ rect.left + rect.width)
    (hy1 : rect.top ≤ clientY) (hy2 : clientY ≤ rect.top + rect.height) :
    (|(tiltRotate rect clientX clientY mx).1| ≤ mx ∧
      |(tiltRotate rect clientX clientY mx).2| ≤ mx) ∧
    tiltRotate rect (rect.left + rect.width / 2) (rect.top + rect.height / 2) mx
      = (0, 0) := by
  have hcY : 0 < rect.height / 2 := by linarith
  have hcX : 0 < rect.width / 2 := by linarith
  constructor
  · constructor
    · show |((clientY - rect.top - rect.height / 2) / (rect.height / 2)) * (-mx)| ≤ mx
      have hr2 : (clientY - rect.top - rect.height / 2) / (rect.height / 2) ≤ 1 := by
        rw [div_le_one hcY]; linarith
      have hr1 : (-1 : ℚ) ≤ (clientY - rect.top - rect.height / 2) / (rect.height / 2) := by
        rw [le_div_iff₀ hcY]; linarith
      rw [abs_le]
      constructor <;> nlinarith
    · show |((clientX - rect.left - rect.width / 2) / (rect.width / 2)) * mx| ≤ mx
      have hr2 : (clientX - rect.left - rect.width / 2) / (rect.width / 2) ≤ 1 := by
        rw [div_le_one hcX]; linarith
      have hr1 : (-1 : ℚ) ≤ (clientX - rect.left - rect.width / 2) / (rect.width / 2) := by
        rw [le_div_iff₀ hcX]; linarith
      rw [abs_le]
      constructor <;> nlinarith
  · show (((rect.top + rect.height / 2 - rect.top - rect.height / 2) / (rect.height / 2)) * (-mx),
        ((rect.left + rect.width / 2 - rect.left - rect.width / 2) / (rect.width / 2)) * mx)
      = (0, 0)
    have h1 : rect.top + rect.height / 2 - rect.top - rect.height / 2 = 0 := by ring
    have h2 : rect.left + rect.width / 2 - rect.left - rect.width / 2 = 0 := by ring
    rw [h1, h2, zero_div, zero_div, zero_mul, zero_mul]

/-- Witness for `tilt_bounds`: a `100 × 100` element at the origin, pointer
at `(75, 25)`, maximum tilt 15 degrees. -/
theorem tilt_bounds_witness :
    (0 : ℚ) ≤ 15 ∧ (0 : ℚ) < 100 ∧ (0 : ℚ) ≤ 75 ∧ (75 : ℚ) ≤ 0 + 100 ∧
    (0 : ℚ) ≤ 25 ∧ (25 : ℚ) ≤ 0 + 100 ∧
    ((|(tiltRotate ⟨0, 0, 100, 100⟩ 75 25 15).1| ≤ 15 ∧
       |(tiltRotate ⟨0, 0, 100, 100⟩ 75 25 15).2| ≤ 15) ∧
     tiltRotate ⟨0, 0, 100, 100⟩ (0 + 100 / 2) (0 + 100 / 2) 15 = (0, 0)) :=
  ⟨by norm_num, by norm_num, by norm_num, by norm_num, by norm_num, by norm_num,
    tilt_bounds ⟨0, 0, 100, 100⟩ 75 25 15 (by norm_num) (by norm_num) (by norm_num)
      (by norm_num) (by norm_num) (by norm_num) (by norm_num)⟩

/-! ## Typing/cycling text animator (TypingAnimation.tsx)

The component's state is `(currentTextIndex, currentText, isDeleting,
isPaused)`; its single effect inspects `texts[currentTextIndex]` and either
schedules one timeout (typing / deleting / pause) or performs an immediate
synchronous state update (entering the pause, or advancing the index).
JS strings are `List Char`; `texts[i]` for an out-of-range `i` is
`undefined`, modelled as `none`, and `undefined.slice(...)` inside the typing
timeout callback throws a `TypeError`.
-/

/-- The React state of `TypingAnimation`. -/
structure TAState where
  currentTextIndex : Nat
  currentText : List Char
  isDeleting : Bool
  isPaused : Bool
deriving DecidableEq, Repr

/-- The initial state: `useState(0)`, `useState('')`, `useState(false)`,
`useState(false)`. -/
def taInit : TAState :=
  { currentTextIndex := 0, currentText := [], isDeleting := false, isPaused := false }

/-- What the callback of a scheduled timeout does when it fires: produce the
next state, or throw. -/
inductive TATimerResult
  | next (s : TAState)
  | throws (msg : String)
deriving DecidableEq, Repr

/-- What one run of the effect body does: schedule a single timeout whose
callback either produces the next state or throws, or perform an immediate
synchronous state update. -/
inductive TAEffect
  | schedule (delayMs : ℚ) (callback : TATimerResult)
  | immediate (s : TAState)
deriving DecidableEq, Repr

/-- The effect body of `TypingAnimation`, translated branch by branch:
pause branch, typing branch (`currentText !== currentFullText` — always true
when `currentFullText` is `undefined`, and the scheduled callback then
throws on `undefined.slice`), pause-entry branch, deleting branch, and
index-advance branch. -/
def taEffect (texts : List (List Char)) (typingSpeed deletingSpeed pauseDuration : ℚ)
    (s : TAState) : TAEffect :=
  let currentFullText := texts[s.currentTextIndex]?
  if s.isPaused = true then
    .schedule pauseDuration (.next { s with isPaused := false, isDeleting := true })
  else if s.isDeleting = false ∧ currentFullText ≠ some s.currentText then
    .schedule typingSpeed
      (match currentFullText with
        | some full => .next { s with currentText := full.take (s.currentText.length + 1) }
        | none => .throws "TypeError: cannot read properties of undefined, reading slice")
  else if s.isDeleting = false ∧ currentFullText = some s.currentText then
    .immediate { s with isPaused := true }
  else if s.isDeleting = true ∧ s.currentText ≠ [] then
    .schedule deletingSpeed (.next { s with currentText := s.currentText.dropLast })
  else
    .immediate
      { s with
        isDeleting := false
        currentTextIndex := (s.currentTextIndex + 1) % texts.length }

/-- The next state produced by one effect firing (running the scheduled
timeout to completion when there is one); `none` when the timeout callback
throws. -/
def taNext (texts : List (List Char)) (typingSpeed deletingSpeed pauseDuration : ℚ)
    (s : TAState) : Option TAState :=
  match taEffect texts typingSpeed deletingSpeed pauseDuration s with
  | .schedule _ (.next s2) => some s2
  | .schedule _ (.throws _) => none
  | .immediate s2 => some s2

/-- States of the typing animation reachable from the initial state. -/
inductive TAReachable (texts : List (List Char)) : TAState → Prop
  | init : TAReachable texts taInit
  | step {ts ds pd : ℚ} {s s2 : TAState} : TAReachable texts s →
      taNext texts ts ds pd s = some s2 → TAReachable texts s2

/-- Invariant of the typing state machine on a non-empty list: the index is
in range and the rendered text is a prefix of the string at the index. -/
lemma ta_invariant (texts : List (List Char)) (hne : texts ≠ [])
    (s : TAState) (hr : TAReachable texts s) :
    s.currentTextIndex < texts.length ∧
    s.currentText <+: texts.getD s.currentTextIndex [] := by
  have hlen : 0 < texts.length := List.length_pos.mpr hne
  induction hr with
  | init => exact ⟨hlen, List.nil_prefix⟩
  | @step ts ds pd s s2 hr hstep ih =>
    obtain ⟨hidx, hpre⟩ := ih
    have hget : texts[s.currentTextIndex]? = some (texts.getD s.currentTextIndex []) := by
      rw [List.getElem?_eq_getElem hidx, List.getD_eq_getElem texts [] hidx]
    unfold taNext taEffect at hstep
    by_cases hp : s.isPaused = true
    · simp only [hp, if_true] at hstep
      obtain rfl := Option.some.inj hstep
      exact ⟨hidx, hpre⟩
    · simp only [hp, if_false] at hstep
      by_cases ht : s.isDeleting = false ∧ texts[s.currentTextIndex]? ≠ some s.currentText
      · rw [if_pos ht, hget] at hstep
        obtain rfl := Option.some.inj hstep
        refine ⟨hidx, ?_⟩
        simpa using List.take_prefix (s.currentText.length + 1) (texts.getD s.currentTextIndex [])
      · rw [if_neg ht] at hstep
        by_cases hq : s.isDeleting = false ∧ texts[s.currentTextIndex]? = some s.currentText
        · rw [if_pos hq] at hstep
          obtain rfl := Option.some.inj hstep
          exact ⟨hidx, hpre⟩
        · rw [if_neg hq] at hstep
          by_cases hd : s.isDeleting = true ∧ s.currentText ≠ []
          · rw [if_pos hd] at hstep
            obtain rfl := Option.some.inj hstep
            refine ⟨hidx, ?_⟩
            exact ( List.dropLast_prefix s.currentText).trans hpre
          · rw [if_neg hd] at hstep
            obtain rfl := Option.some.inj hstep
            have htext : s.currentText = [] := by
              by_cases hdel : s.isDeleting = true
              · by_contra hne2
                exact hd ⟨hdel, hne2⟩
              · have hdel2 : s.isDeleting = false := by
                  cases h : s.isDeleting
                  · rfl
                  · exact absurd h hdel
                by_cases he : texts[s.currentTextIndex]? = some s.currentText
                · exact absurd ⟨hdel2, he⟩ hq
                · exact absurd ⟨hdel2, he⟩ ht
            refine ⟨Nat.mod_lt _ hlen, ?_⟩
            simp [htext]

/-- C5: on a non-empty list, at every reachable state the rendered text is a
prefix of the currently targeted string; every typing-branch transition
grows the rendered text by exactly one character, and every deleting-branch
transition shrinks it by exactly one character (each preserving the prefix
invariant). -/
theorem typing_prefix_invariant (texts : List (List Char)) (hne : texts ≠ [])
    (s : TAState) (hr : TAReachable texts s) :
    s.currentText <+: texts.getD s.currentTextIndex [] ∧
    (∀ (ts ds pd : ℚ) (s2 : TAState), s.isPaused = false → s.isDeleting = false →
      s.currentText ≠ texts.getD s.currentTextIndex [] →
      taNext texts ts ds pd s = some s2 →
      s2.currentText.length = s.currentText.length + 1 ∧
      s2.currentText <+: texts.getD s2.currentTextIndex []) ∧
    (∀ (ts ds pd : ℚ) (s2 : TAState), s.isPaused = false → s.isDeleting = true →
      s.currentText ≠ [] →
      taNext texts ts ds pd s = some s2 →
      s2.currentText.length + 1 = s.currentText.length ∧
      s2.currentText <+: texts.getD s2.currentTextIndex []) := by
  obtain ⟨hidx, hpre⟩ := ta_invariant texts hne s hr
  have hget : texts[s.currentTextIndex]? = some (texts.getD s.currentTextIndex []) := by
    rw [List.getElem?_eq_getElem hidx, List.getD_eq_getElem texts [] hidx]
  refine ⟨hpre, ?_, ?_⟩
  · intro ts ds pd s2 hp hdel hneq hstep
    have hcond : s.isDeleting = false ∧ texts[s.currentTextIndex]? ≠ some s.currentText := by
      refine ⟨hdel, ?_⟩
      rw [hget]
      intro h
      exact hneq (Option.some.inj h).symm
    unfold taNext taEffect at hstep
    rw [if_neg (by simp [hp]), if_pos hcond, hget] at hstep
    obtain rfl := Option.some.inj hstep
    have hlt : s.currentText.length < (texts.getD s.currentTextIndex []).length := by
      have hle := hpre.length_le
      rcases lt_or_eq_of_le hle with h | h
      · exact h
      · exact absurd (hpre.eq_of_length h) hneq
    constructor
    · simpa using Nat.min_eq_left (Nat.succ_le_of_lt hlt)
    · simpa using List.take_prefix (s.currentText.length + 1) (texts.getD s.currentTextIndex [])
  · intro ts ds pd s2 hp hdel hneq hstep
    have hcond : s.isDeleting = true ∧ s.currentText ≠ [] := ⟨hdel, hneq⟩
    unfold taNext taEffect at hstep
    rw [if_neg (by simp [hp]), if_neg (by simp [hdel]), if_neg (by simp [hdel]),
      if_pos hcond] at hstep
    obtain rfl := Option.some.inj hstep
    constructor
    · have : 0 < s.currentText.length := List.length_pos.mpr hneq
      simp only [List.length_dropLast]
      omega
    · exact ( List.dropLast_prefix s.currentText).trans hpre

/-- Witness for `typing_prefix_invariant` at the concrete list
`["a", "bb"]` and the initial state. -/
theorem typing_prefix_invariant_witness :
    ([[Char.ofNat 97], [Char.ofNat 98, Char.ofNat 98]] : List (List Char)) ≠ [] ∧
    taInit.currentText <+:
      ([[Char.ofNat 97], [Char.ofNat 98, Char.ofNat 98]] : List (List Char)).getD
        taInit.currentTextIndex [] :=
  ⟨by decide,
    (typing_prefix_invariant [[Char.ofNat 97], [Char.ofNat 98, Char.ofNat 98]]
      (by decide) taInit TAReachable.init).1⟩

/-- C4 (failing-input evaluation): with the empty string list, the effect at
the initial state is not a detected configuration error — it schedules a
typing timeout (so a timer loop does start), and that timeout's callback
throws a `TypeError` because `texts[0]` is `undefined`. -/
theorem typing_empty_list_crash :
    taEffect [] 100 50 2000 taInit =
      TAEffect.schedule 100
        (TATimerResult.throws "TypeError: cannot read properties of undefined, reading slice") := by
  decide

/-! ## Theme persistence store (use-theme.tsx)

`ThemeProvider` initialises from `localStorage.getItem('theme')` when that
value is truthy, otherwise from `matchMedia('(prefers-color-scheme: dark)')`;
`setTheme` updates the state, writes to `localStorage`, and re-applies the
`dark` root class; `useTheme` throws when the context is absent.
-/

/-- The theme enum: `type Theme = 'light' | 'dark'`. -/
inductive Theme
  | light
  | dark
deriving DecidableEq, Repr

/-- The literal string stored in `localStorage` for a theme. -/
def Theme.toStr : Theme → String
  | .light => "light"
  | .dark => "dark"

/-- `applyTheme`: whether the `dark` class ends up on the document root. -/
def applyTheme (newTheme : String) : Bool := newTheme = "dark"

/-- The provider's mutable world: the React `theme` state, the
`localStorage` entry under the key `theme`, and the root `dark` class. -/
structure ThemeStoreState where
  themeState : String
  storage : Option String
  darkClass : Bool
deriving DecidableEq, Repr

/-- `setTheme(newTheme)`: `setThemeState`, `localStorage.setItem('theme', …)`,
`applyTheme` — all three performed together. -/
def setThemeStore (st : ThemeStoreState) (newTheme : Theme) : ThemeStoreState :=
  { themeState := newTheme.toStr,
    storage := some newTheme.toStr,
    darkClass := applyTheme newTheme.toStr }

/-- `toggleTheme`: `setTheme` with the opposite of the current theme. -/
def toggleTheme (st : ThemeStoreState) : ThemeStoreState :=
  setThemeStore st (if st.themeState = "light" then Theme.dark else Theme.light)

/-- Result of the provider's init effect. -/
structure ThemeInitResult where
  theme : String
  consultedSystem : Bool
  darkClass : Bool
deriving DecidableEq, Repr

/-- The `else` arm of the init effect: read the system color-scheme
preference and use it. -/
def themeInitFromSystem (prefersDark : Bool) : ThemeInitResult :=
  let initialTheme := if prefersDark then "dark" else "light"
  { theme := initialTheme, consultedSystem := true, darkClass := applyTheme initialTheme }

/-- The provider's init effect: `const stored = localStorage.getItem('theme')`;
`if (stored)` (JS truthiness: non-null and non-empty) use it without looking
at the system preference, else fall back to the system preference. -/
def themeInit (stored : Option String) (prefersDark : Bool) : ThemeInitResult :=
  match stored with
  | some s =>
    if s = "" then themeInitFromSystem prefersDark
    else { theme := s, consultedSystem := false, darkClass := applyTheme s }
  | none => themeInitFromSystem prefersDark

/-- C7: for every theme value `v`, `setTheme(v)` followed by a fresh
initialisation reads `v` back from the persisted storage, does not consult
the system preference, and applies the matching root class — for any prior
store contents and any system preference. -/
theorem theme_round_trip (st : ThemeStoreState) (v : Theme) (prefersDark : Bool) :
    themeInit (setThemeStore st v).storage prefersDark =
      { theme := v.toStr, consultedSystem := false, darkClass := applyTheme v.toStr } := by
  cases v <;> rfl

/-- The context value the provider exposes: `{ theme, toggleTheme, setTheme }`. -/
structure ThemeContextType where
  theme : String
  toggleTheme : ThemeStoreState → ThemeStoreState
  setTheme : ThemeStoreState → Theme → ThemeStoreState

/-- The value `ThemeProvider` passes to `ThemeContext.Provider`. -/
def themeProviderValue (st : ThemeStoreState) : ThemeContextType :=
  { theme := st.themeState,
    toggleTheme := toggleTheme,
    setTheme := setThemeStore }

/-- `useTheme()`: throws when the context is `undefined` (no enclosing
`ThemeProvider`), otherwise returns the context value. -/
def useTheme (context : Option ThemeContextType) : Except String ThemeContextType :=
  match context with
  | none => Except.error "useTheme must be used within a ThemeProvider"
  | some ctx => Except.ok ctx

/-- C10: outside a `ThemeProvider` the hook throws; inside one it returns
the provider's context value, whose `theme` field is the provider's current
theme (and which carries the `toggleTheme` and `setTheme` operations). -/
theorem useTheme_guard :
    useTheme none = Except.error "useTheme must be used within a ThemeProvider" ∧
    ∀ st : ThemeStoreState,
      useTheme (some (themeProviderValue st)) = Except.ok (themeProviderValue st) ∧
      (themeProviderValue st).theme = st.themeState :=
  ⟨rfl, fun _ => ⟨rfl, rfl⟩⟩

end UIHooks
